import Mathlib

/-!
Verification of the KPT poller real-time ingestion core
(`src/kpt/poller/websocket_client.py`, `models.py`, `parsers.py`,
`poller.py`) against its natural-language specification.

The Python source is shallowly embedded:
* JSON values decoded by `json.loads` are modelled by the inductive `JVal`
  (Python `int` and `float` are distinct JSON shapes; floats are modelled
  as exact rationals, which is faithful for the decimal-literal values the
  poller handles, since CPython float repr round-trips exactly).
* A line of the on-disk queue log is a `QLine`: either a decodable JSON
  value, an empty line, or a line on which `json.loads` raises.
* Exceptions that the source raises and catches are modelled with
  `Except PyErr`; exceptions that a modelled `try` block catches are folded
  into the control flow exactly where the source catches them.
* Clock reads (`time.monotonic()`, `datetime.now().timestamp()`) are passed
  in explicitly as parameters.
* I/O failures (`OSError` on file writes or renames) are passed in as
  explicit success flags at the call sites where the source catches them.
-/

/-- Python `int(q)` on a float truncates toward zero. -/
def ratTrunc (q : Rat) : Int :=
  if 0 ≤ q then q.floor else -((-q).floor)

/-- Exceptions raised by the modelled Python code. -/
inductive PyErr where
  | keyError
  | valueError
  | typeError
deriving DecidableEq, Repr

/-- JSON values as decoded by Python `json.loads`. -/
inductive JVal where
  | null
  | bool (b : Bool)
  | int (n : Int)
  | num (q : Rat)
  | str (s : String)
  | arr (xs : List JVal)
  | obj (kvs : List (String × JVal))

/-- `dict.get(k)` on a JSON object: first binding of the key, if any. -/
def jget (kvs : List (String × JVal)) (k : String) : Option JVal :=
  match kvs.find? (fun kv => kv.1 == k) with
  | some kv => some kv.2
  | none => none

/-- Python truthiness of a JSON-decoded value. -/
def pyTruthy : JVal → Bool
  | .null => false
  | .bool b => b
  | .int n => n != 0
  | .num q => q != 0
  | .str s => s != ""
  | .arr xs => !xs.isEmpty
  | .obj kvs => !kvs.isEmpty

/-- One decimal digit. -/
def charDigit (c : Char) : Option Nat :=
  if '0' ≤ c ∧ c ≤ '9' then some (c.toNat - '0'.toNat) else none

/-- Parse a nonempty run of decimal digits as a natural number. -/
def parseNatChars (cs : List Char) : Option Nat :=
  cs.foldl (fun acc c => acc.bind (fun n => (charDigit c).map (fun d => n * 10 + d)))
    (if cs.isEmpty then none else some 0)

/-- Python `int(s)` on a string: an optional sign followed by digits
(surrounding-whitespace tolerance is not modelled; no claim reaches it). -/
def parseIntChars (cs : List Char) : Option Int :=
  match cs with
  | '-' :: rest => (parseNatChars rest).map (fun n => -(n : Int))
  | '+' :: rest => (parseNatChars rest).map (fun n => (n : Int))
  | _ => (parseNatChars cs).map (fun n => (n : Int))

/-- Python `int(v)` on a JSON-decoded value; raises on null/list/dict,
`ValueError` on a non-numeric string. -/
def pyInt : JVal → Except PyErr Int
  | .bool b => .ok (if b then 1 else 0)
  | .int n => .ok n
  | .num q => .ok (ratTrunc q)
  | .str s =>
    match parseIntChars s.data with
    | some n => .ok n
    | none => .error .valueError
  | .null => .error .typeError
  | .arr _ => .error .typeError
  | .obj _ => .error .typeError

/-- Decimal fraction digits accumulated into a rational. -/
def fracChars (cs : List Char) : Option Rat :=
  match cs with
  | [] => none
  | _ =>
    (cs.foldl
      (fun acc c =>
        acc.bind (fun p => (charDigit c).map (fun d => (p.1 * 10 + d, p.2 * 10))))
      (some ((0 : Int), (1 : Nat)))).map
      (fun p => (p.1 : Rat) / (p.2 : Rat))

/-- Python `float(s)` on a decimal string `[-]digits[.digits]`
(exponent and special forms are not modelled; no claim reaches them). -/
def parseRatChars (cs : List Char) : Option Rat :=
  let core : List Char → Option Rat := fun body =>
    match body.splitOn '.' with
    | [ds] => (parseNatChars ds).map (fun n => (n : Rat))
    | [ds, fs] => do
      let n ← parseNatChars ds
      let f ← fracChars fs
      return (n : Rat) + f
    | _ => none
  match cs with
  | '-' :: rest => (core rest).map (fun q => -q)
  | '+' :: rest => core rest
  | _ => core cs

/-- Python `float(v)` on a JSON-decoded value. -/
def pyFloat : JVal → Except PyErr Rat
  | .bool b => .ok (if b then 1 else 0)
  | .int n => .ok (n : Rat)
  | .num q => .ok q
  | .str s =>
    match parseRatChars s.data with
    | some q => .ok q
    | none => .error .valueError
  | .null => .error .typeError
  | .arr _ => .error .typeError
  | .obj _ => .error .typeError

/-- `src/kpt/poller/models.py` — the immutable vehicle position record. -/
structure VehiclePosition where
  vehicle_id : Int
  route_id : Int
  lat : Rat
  lon : Rat
  direction : Int
  flag : Int
  timestamp : Int
deriving DecidableEq, Repr

/-- `VehiclePosition.to_dict`: the JSON object written as one queue-log line. -/
def VehiclePosition.to_dict (p : VehiclePosition) : JVal :=
  .obj [("vehicle_id", .int p.vehicle_id), ("route_id", .int p.route_id),
        ("lat", .num p.lat), ("lon", .num p.lon),
        ("direction", .int p.direction), ("flag", .int p.flag),
        ("timestamp", .int p.timestamp)]

/-- The Python idiom `data.get(k) or data.get(k2, 0)`: the first value if
present and truthy, else the fallback key with default `0`. -/
def pyGetOr (kvs : List (String × JVal)) (k k2 : String) : JVal :=
  match jget kvs k with
  | some v => if pyTruthy v then v else (jget kvs k2).getD (.int 0)
  | none => (jget kvs k2).getD (.int 0)

/-- `VehiclePosition.from_dict`. `now` is `int(datetime.now().timestamp())`,
used when the `timestamp` entry is absent or falsy (in particular `0`).
Field expressions are evaluated in the source order, so the first raising
field determines the exception. -/
def VehiclePosition.from_dict (now : Int) (v : JVal) : Except PyErr VehiclePosition :=
  match v with
  | .obj kvs => do
    let vid ← pyInt (pyGetOr kvs "vehicle_id" "id")
    let rid ← pyInt (pyGetOr kvs "route_id" "routeId")
    let latv ←
      match jget kvs "lat" with
      | some x => Except.ok x
      | none => Except.error PyErr.keyError
    let lat ← pyFloat latv
    let lonv ←
      match jget kvs "lon" with
      | some x => Except.ok x
      | none => Except.error PyErr.keyError
    let lon ← pyFloat lonv
    let dir ← pyInt ((jget kvs "direction").getD (.int 0))
    let flg ← pyInt ((jget kvs "flag").getD (.int 0))
    let ts ← pyInt
      (match jget kvs "timestamp" with
       | some t => if pyTruthy t then t else .int now
       | none => .int now)
    return ⟨vid, rid, lat, lon, dir, flg, ts⟩
  | _ => .error .typeError

/-- Serialize-then-parse on a position: every field survives except that a
zero timestamp is replaced by the current clock (the `or`-fallback in
`from_dict` treats `0` as absent). -/
theorem from_dict_to_dict (now : Int) (p : VehiclePosition) :
    VehiclePosition.from_dict now p.to_dict =
      .ok { p with timestamp := if p.timestamp = 0 then now else p.timestamp } := by
  rcases p with ⟨vid, rid, lat, lon, dir, flg, ts⟩
  by_cases hv : vid = 0 <;> by_cases hr : rid = 0 <;> by_cases ht : ts = 0 <;>
    (simp [VehiclePosition.from_dict, VehiclePosition.to_dict, pyGetOr, jget, pyTruthy,
      pyInt, pyFloat, hv, hr, ht]
     try rfl)

/-- Round-trip identity for positions with a nonzero timestamp. -/
theorem from_dict_to_dict_nonzero (now : Int) (p : VehiclePosition)
    (h : p.timestamp ≠ 0) :
    VehiclePosition.from_dict now p.to_dict = .ok p := by
  rw [from_dict_to_dict]
  simp [h]

/-!
## The crash-recoverable queue (`ConcurrentFileQueue`)

The two on-disk files under the output directory are modelled as optional
lists of lines (`none` = file does not exist).  `append` writes the line
`json.dumps(position.to_dict())`; since CPython `json.dumps`/`json.loads`
round-trip exactly on these objects, a well-formed line is modelled by the
JSON value itself rather than by its text.
-/

/-- One line of the buffer or processing file: a decodable JSON value, a
blank line, or text on which `json.loads` raises `JSONDecodeError`. -/
inductive QLine where
  | json (v : JVal)
  | blank
  | malformed

/-- The two queue files living in the buffer directory. -/
structure QueueFS where
  buffer : Option (List QLine)
  processing : Option (List QLine)

/-- Combined state of one `ConcurrentFileQueue` instance: the in-memory
deque (oldest first) plus the directory contents. -/
structure QueueState where
  queue : List VehiclePosition
  fs : QueueFS

/-- A directory with neither a buffer nor a processing file. -/
def emptyFS : QueueFS := ⟨none, none⟩

/-- A fresh queue over an empty directory. -/
def emptyQueueState : QueueState := ⟨[], emptyFS⟩

/-- The last `n` elements of a list: the contents of a
`collections.deque(maxlen := n)` after pushing the whole list. -/
def takeLast (n : Nat) (l : List α) : List α :=
  l.drop (l.length - n)

namespace ConcurrentFileQueue

/-- `append(position)`: push onto the bounded deque (the deque itself drops
the oldest element once `max_size` is reached), then append the JSON line
to the buffer file; `writeOk = false` models an `OSError` during the file
write, which the source catches and logs, leaving the method to return
normally either way. -/
def append (maxSize : Nat) (st : QueueState) (p : VehiclePosition)
    (writeOk : Bool) : QueueState :=
  { queue := takeLast maxSize (st.queue ++ [p])
    fs :=
      if writeOk then
        { st.fs with buffer := some ((st.fs.buffer.getD []) ++ [.json p.to_dict]) }
      else st.fs }

/-- `flush()`: with an empty deque, return `[]` without touching the files;
otherwise drain the deque and, if a buffer file exists, rename it over the
processing path (a POSIX rename silently replaces an existing processing
file).  `renameOk = false` models an `OSError` on the rename, which is
caught and logged. -/
def flush (st : QueueState) (renameOk : Bool) : List VehiclePosition × QueueState :=
  if st.queue.isEmpty then ([], st)
  else
    let fs' :=
      match st.fs.buffer with
      | some lines =>
        if renameOk then { buffer := none, processing := some lines }
        else st.fs
      | none => st.fs
    (st.queue, { queue := [], fs := fs' })

/-- `confirm_flush()`: delete the processing file if it exists. -/
def confirm_flush (st : QueueState) : QueueState :=
  { st with fs := { st.fs with processing := none } }

/-- The body of `recover`'s per-file `for line in f` loop inside its `try`:
blank lines are skipped; a line that raises `json.JSONDecodeError` or whose
`from_dict` raises `KeyError` aborts the file (both are in the `except`
tuple), keeping the positions accumulated so far and returning `false` for
"file not fully read"; an uncaught exception (for example `ValueError` from
`float()` on a bad string) propagates. -/
def readLines (now : Int) : List QLine → List VehiclePosition →
    Except PyErr (List VehiclePosition × Bool)
  | [], acc => .ok (acc, true)
  | .blank :: rest, acc => readLines now rest acc
  | .malformed :: _, acc => .ok (acc, false)
  | .json v :: rest, acc =>
    match VehiclePosition.from_dict now v with
    | .ok p => readLines now rest (acc ++ [p])
    | .error .keyError => .ok (acc, false)
    | .error e => .error e

/-- Process one of the two files during `recover`: a missing file is
skipped; a fully read file is removed with `os.remove`; a file on which a
caught exception fired is left in place. -/
def recoverFile (now : Int) (file : Option (List QLine))
    (acc : List VehiclePosition) :
    Except PyErr (List VehiclePosition × Option (List QLine)) :=
  match file with
  | none => .ok (acc, none)
  | some lines =>
    match readLines now lines acc with
    | .ok (acc', true) => .ok (acc', none)
    | .ok (acc', false) => .ok (acc', some lines)
    | .error e => .error e

/-- `recover()`: read the processing file first, then the buffer file,
sharing one accumulator; return the recovered positions and the resulting
directory contents. -/
def recover (now : Int) (fs : QueueFS) :
    Except PyErr (List VehiclePosition × QueueFS) := do
  let (acc1, proc') ← recoverFile now fs.processing []
  let (acc2, buf') ← recoverFile now fs.buffer acc1
  return (acc2, ⟨buf', proc'⟩)

end ConcurrentFileQueue

/-!
## The periodic flush cycle (`KPTPoller._flush_positions_loop`)
-/

/-- Queue state together with what the flush loop has handed to the writer:
each successfully written batch, and the number of `confirm_flush` calls. -/
structure SysState where
  qs : QueueState
  written : List (List VehiclePosition)
  confirms : Nat

/-- The initial orchestrator state over an empty directory. -/
def emptySysState : SysState := ⟨emptyQueueState, [], 0⟩

/-- One iteration of `_flush_positions_loop`: flush the queue; an empty
batch is skipped; otherwise hand the batch to `writer.write_positions` and
call `confirm_flush` only if the write succeeded (`writerOk`); a writer
exception is caught and logged, leaving the iteration to end normally. -/
def flushCycle (st : SysState) (renameOk writerOk : Bool) : SysState :=
  let res := ConcurrentFileQueue.flush st.qs renameOk
  if res.1.isEmpty then { st with qs := res.2 }
  else if writerOk then
    { qs := ConcurrentFileQueue.confirm_flush res.2
      written := st.written ++ [res.1]
      confirms := st.confirms + 1 }
  else { st with qs := res.2 }

/-- A sequence of successful `append` calls. -/
def runAppends (maxSize : Nat) (st : QueueState) (ps : List VehiclePosition) :
    QueueState :=
  ps.foldl (fun s p => ConcurrentFileQueue.append maxSize s p true) st

/-!
## The deduplication filter (`DeduplicationFilter`)

`time.monotonic()` readings are modelled as exact rationals and passed in
explicitly.  The `_seen` dict is an insertion-ordered association list with
unique keys (`is_duplicate` only ever inserts absent keys).
-/

/-- State of `DeduplicationFilter`: the key is `(vehicle_id, timestamp)`
and the value the expiry time `insertion + ttl`. -/
structure DeduplicationFilter where
  ttl : Rat
  seen : List ((Int × Int) × Rat)
  last_cleanup : Rat
  cleanup_interval : Rat

/-- `DeduplicationFilter(ttl=60.0)` constructed at monotonic time `t0`. -/
def DeduplicationFilter.init (t0 : Rat) : DeduplicationFilter :=
  ⟨60, [], t0, 30⟩

/-- Dict membership lookup on the `_seen` association list. -/
def lookupSeen (seen : List ((Int × Int) × Rat)) (k : Int × Int) : Option Rat :=
  match seen.find? (fun kv => kv.1 == k) with
  | some kv => some kv.2
  | none => none

/-- `_cleanup(now)`: delete every entry whose expiry is `≤ now` and record
the sweep time. -/
def DeduplicationFilter.cleanup (st : DeduplicationFilter) (now : Rat) :
    DeduplicationFilter :=
  { st with seen := st.seen.filter (fun kv => decide (now < kv.2))
            last_cleanup := now }

/-- `is_duplicate(position)` at monotonic time `now`: first run the lazy
sweep if more than `cleanup_interval` has elapsed; then report a duplicate
when the key is present (expired or not), else insert it with expiry
`now + ttl` and report fresh. -/
def DeduplicationFilter.is_duplicate (st : DeduplicationFilter) (now : Rat)
    (p : VehiclePosition) : Bool × DeduplicationFilter :=
  let st1 :=
    if st.cleanup_interval < now - st.last_cleanup then st.cleanup now else st
  let key := (p.vehicle_id, p.timestamp)
  match lookupSeen st1.seen key with
  | some _ => (true, st1)
  | none => (false, { st1 with seen := st1.seen ++ [(key, now + st1.ttl)] })

/-!
## The reconnect backoff (`AsyncWebSocketClient._run_loop`)

Each iteration of `_run_loop` either fails before a connection is
established (handshake returned no context, the websocket connect failed,
or an exception escaped the iteration body) — in which case the loop sleeps
the current `delay` and then doubles it, capped at 300 — or connects
successfully, which resets `delay` to the configured base and, once the
receive loop ends, sleeps the base reconnect delay before the next attempt.
-/

/-- Outcome of one `_run_loop` iteration. -/
inductive LoopEvent where
  | handshakeFail
  | connectFail
  | errorCaught
  | sessionEnd

/-- One `_run_loop` iteration: the new value of the `delay` variable and
the sleep performed during the iteration, appended to the trace. -/
def runLoopStep (base : Nat) (s : Nat × List Nat) (e : LoopEvent) :
    Nat × List Nat :=
  match e with
  | .handshakeFail => (min (s.1 * 2) 300, s.2 ++ [s.1])
  | .connectFail => (min (s.1 * 2) 300, s.2 ++ [s.1])
  | .errorCaught => (min (s.1 * 2) 300, s.2 ++ [s.1])
  | .sessionEnd => (base, s.2 ++ [base])

/-- The `_run_loop` iterations folded over a sequence of outcomes, starting
from `delay = reconnect_delay`: final `delay` value and the sleeps
performed, in order. -/
def runLoop (base : Nat) (events : List LoopEvent) : Nat × List Nat :=
  events.foldl (runLoopStep base) (base, [])

/-- The value of the `delay` variable after `n` consecutive failures. -/
def delayVar (base : Nat) : Nat → Nat
  | 0 => base
  | n + 1 => min (delayVar base n * 2) 300

/-!
## Protocol frame handling (`AsyncWebSocketClient._handle_protocol_message`)
-/

/-- Result of `_handle_protocol_message`: the frames sent on the websocket,
the new value of the `connected` flag, and the returned boolean. -/
structure ProtoResult where
  sends : List String
  connected : Bool
  handled : Bool
deriving DecidableEq, Repr

/-- `_handle_protocol_message(message)` with current connected flag `c`:
the literal probe response `"3probe"` triggers the upgrade-completion frame
`"5"`, the namespace-connect frame `"40"`, and sets connected; otherwise a
leading `'3'` is a pong (no reply), a leading `'2'` a server ping answered
with `"3"`, and anything else is unhandled. -/
def handle_protocol_message (c : Bool) (message : String) : ProtoResult :=
  if message == "3probe" then ⟨["5", "40"], true, true⟩
  else if message == "" then ⟨[], c, false⟩
  else
    match message.data with
    | [] => ⟨[], c, false⟩
    | ch :: _ =>
      if ch == '3' then ⟨[], c, true⟩
      else if ch == '2' then ⟨["3"], c, true⟩
      else ⟨[], c, false⟩

/-!
## The handshake parser (`parsers.parse_handshake_response`)

This is the one place where raw JSON text is parsed, so the relevant slice
of `json.loads` is modelled textually: strings without escape sequences,
integer numerals, `true`/`false`/`null`, arrays and objects — the shapes a
Socket.IO handshake body contains.  (String escapes and fraction/exponent
numerals make the modelled parser fail where CPython would succeed; no
claim depends on such input.)
-/

/-- Index of the first occurrence of `needle` in `text`, as found by the
Python `in`/`str.index` pair. -/
def listIndexOf (needle : List Char) (text : List Char) : Option Nat :=
  match text with
  | [] => if needle.isEmpty then some 0 else none
  | _ :: rest =>
    if needle.isPrefixOf text then some 0
    else (listIndexOf needle rest).map Nat.succ

/-- `_extract_json_object`'s scan: the length of the prefix ending at the
brace that closes the first opened one, if the braces ever balance. -/
def extractLen : List Char → Int → Nat → Option Nat
  | [], _, _ => none
  | c :: rest, n, i =>
    if c = '{' then extractLen rest (n + 1) (i + 1)
    else if c = '}' then
      if n - 1 = 0 then some (i + 1) else extractLen rest (n - 1) (i + 1)
    else extractLen rest n (i + 1)

/-- `_extract_json_object(text)`: the prefix up to the balancing brace, or
the whole text when the scan falls off the end. -/
def extract_json_object (cs : List Char) : List Char :=
  match extractLen cs 0 0 with
  | some len => cs.take len
  | none => cs

/-- JSON insignificant whitespace. -/
def skipWs (cs : List Char) : List Char :=
  cs.dropWhile (fun c => c = ' ' ∨ c = '\t' ∨ c = '\n' ∨ c = '\r')

/-- A JSON string body up to the closing quote (escapes unmodelled). -/
def jparseStringBody : List Char → Option (String × List Char)
  | [] => none
  | c :: rest =>
    if c = '"' then some ("", rest)
    else if c = '\\' then none
    else (jparseStringBody rest).map (fun p => (⟨c :: p.1.data⟩, p.2))

/-- Leading decimal digits of a numeral. -/
def jtakeDigits (cs : List Char) : List Char × List Char :=
  (cs.takeWhile (fun c => '0' ≤ c ∧ c ≤ '9'), cs.dropWhile (fun c => '0' ≤ c ∧ c ≤ '9'))

mutual

/-- One JSON value, by recursive descent with explicit fuel. -/
def jparseVal : Nat → List Char → Option (JVal × List Char)
  | 0, _ => none
  | fuel + 1, cs =>
    match skipWs cs with
    | [] => none
    | c :: rest =>
      if c = '"' then (jparseStringBody rest).map (fun p => (.str p.1, p.2))
      else if c = '[' then
        match skipWs rest with
        | ']' :: rest' => some (.arr [], rest')
        | _ => (jparseArrItems fuel rest).map (fun p => (.arr p.1, p.2))
      else if c = '{' then
        match skipWs rest with
        | '}' :: rest' => some (.obj [], rest')
        | _ => (jparseObjItems fuel rest).map (fun p => (.obj p.1, p.2))
      else if c = 't' then
        if rest.take 3 = ['r', 'u', 'e'] then some (.bool true, rest.drop 3) else none
      else if c = 'f' then
        if rest.take 4 = ['a', 'l', 's', 'e'] then some (.bool false, rest.drop 4)
        else none
      else if c = 'n' then
        if rest.take 3 = ['u', 'l', 'l'] then some (.null, rest.drop 3) else none
      else if c = '-' then
        match jtakeDigits rest with
        | ([], _) => none
        | (ds, rest') =>
          match rest' with
          | '.' :: _ => none
          | 'e' :: _ => none
          | 'E' :: _ => none
          | _ => (parseNatChars ds).map (fun m => (.int (-(m : Int)), rest'))
      else if '0' ≤ c ∧ c ≤ '9' then
        match jtakeDigits (c :: rest) with
        | ([], _) => none
        | (ds, rest') =>
          match rest' with
          | '.' :: _ => none
          | 'e' :: _ => none
          | 'E' :: _ => none
          | _ => (parseNatChars ds).map (fun m => (.int (m : Int), rest'))
      else none

/-- The comma-separated items of a nonempty JSON array, after `[`. -/
def jparseArrItems : Nat → List Char → Option (List JVal × List Char)
  | 0, _ => none
  | fuel + 1, cs => do
    let (v, rest) ← jparseVal fuel cs
    match skipWs rest with
    | ',' :: rest' =>
      (jparseArrItems fuel rest').map (fun p => (v :: p.1, p.2))
    | ']' :: rest' => some ([v], rest')
    | _ => none

/-- The comma-separated members of a nonempty JSON object, after `{`. -/
def jparseObjItems : Nat → List Char → Option (List (String × JVal) × List Char)
  | 0, _ => none
  | fuel + 1, cs => do
    match skipWs cs with
    | '"' :: rest => do
      let (k, rest1) ← jparseStringBody rest
      match skipWs rest1 with
      | ':' :: rest2 => do
        let (v, rest3) ← jparseVal fuel rest2
        match skipWs rest3 with
        | ',' :: rest4 =>
          (jparseObjItems fuel rest4).map (fun p => ((k, v) :: p.1, p.2))
        | '}' :: rest4 => some ([(k, v)], rest4)
        | _ => none
      | _ => none
    | _ => none

end

/-- `json.loads` on the extracted object text: the parse must consume the
whole input up to trailing whitespace. -/
def json_loads (cs : List Char) : Option JVal :=
  match jparseVal (cs.length + 1) cs with
  | some (v, rest) => if (skipWs rest).isEmpty then some v else none
  | none => none

/-- `parse_handshake_response(text)` from `src/kpt/poller/parsers.py`:
locate the `":0{"` marker, extract the JSON object that starts at its
brace, decode it, and return `(data.get("sid"), data.get("pingInterval"))`;
any failure yields `(none, none)`. -/
def parse_handshake_response (text : List Char) : Option JVal × Option JVal :=
  match listIndexOf (":0\x7b").data text with
  | none => (none, none)
  | some i =>
    let jsonStr := extract_json_object (text.drop (i + 2))
    match json_loads jsonStr with
    | some (.obj kvs) => (jget kvs "sid", jget kvs "pingInterval")
    | _ => (none, none)

/-!
## Supporting lemmas
-/

/-- The serialized log lines of a list of positions. -/
def goodLines (ps : List VehiclePosition) : List QLine :=
  ps.map (fun p => QLine.json p.to_dict)

theorem takeLast_length (n : Nat) (l : List α) :
    (takeLast n l).length = l.length - (l.length - n) := by
  simp [takeLast]

theorem takeLast_length_le (n : Nat) (l : List α) :
    (takeLast n l).length ≤ n := by
  rw [takeLast_length]
  omega

theorem takeLast_of_length_le (n : Nat) (l : List α) (h : l.length ≤ n) :
    takeLast n l = l := by
  simp [takeLast, Nat.sub_eq_zero_of_le h]

theorem takeLast_append_of_le (n : Nat) (l l' : List α) (h : l.length + l'.length ≤ l.length + n) :
    takeLast n (l ++ l') = l.drop (l.length + l'.length - n) ++ l' := by
  rw [takeLast, List.length_append, List.drop_append_of_le_length]
  omega

theorem takeLast_takeLast_append (n : Nat) (l l' : List α) :
    takeLast n (takeLast n l ++ l') = takeLast n (l ++ l') := by
  unfold takeLast
  rw [List.drop_append_eq_append_drop, List.drop_append_eq_append_drop, List.drop_drop]
  simp only [List.length_append, List.length_drop]
  congr 1
  · congr 1
    omega
  · congr 1
    omega

theorem runAppends_queue (maxSize : Nat) (ps : List VehiclePosition) :
    ∀ st : QueueState, st.queue.length ≤ maxSize →
      (runAppends maxSize st ps).queue = takeLast maxSize (st.queue ++ ps) := by
  induction ps with
  | nil =>
    intro st h
    show st.queue = _
    rw [List.append_nil, takeLast_of_length_le maxSize st.queue h]
  | cons p ps ih =>
    intro st h
    show (runAppends maxSize (ConcurrentFileQueue.append maxSize st p true) ps).queue = _
    rw [ih (ConcurrentFileQueue.append maxSize st p true) (takeLast_length_le _ _)]
    show takeLast maxSize (takeLast maxSize (st.queue ++ [p]) ++ ps) = _
    rw [takeLast_takeLast_append]
    simp

theorem runAppends_fs_some (maxSize : Nat) (ps : List VehiclePosition) :
    ∀ (st : QueueState) (b : List QLine), st.fs.buffer = some b →
      (runAppends maxSize st ps).fs =
        ⟨some (b ++ goodLines ps), st.fs.processing⟩ := by
  induction ps with
  | nil =>
    intro st b hb
    simp [runAppends, goodLines, ← hb]
  | cons p ps ih =>
    intro st b hb
    show (runAppends maxSize (ConcurrentFileQueue.append maxSize st p true) ps).fs = _
    rw [ih (ConcurrentFileQueue.append maxSize st p true) (b ++ [.json p.to_dict])
      (by simp [ConcurrentFileQueue.append, hb])]
    simp [ConcurrentFileQueue.append, goodLines]

theorem runAppends_fs_of_none (maxSize : Nat) (p : VehiclePosition)
    (ps : List VehiclePosition) (st : QueueState) (hb : st.fs.buffer = none) :
    (runAppends maxSize st (p :: ps)).fs =
      ⟨some (goodLines (p :: ps)), st.fs.processing⟩ := by
  show (runAppends maxSize (ConcurrentFileQueue.append maxSize st p true) ps).fs = _
  rw [runAppends_fs_some maxSize ps (ConcurrentFileQueue.append maxSize st p true)
    [.json p.to_dict] (by simp [ConcurrentFileQueue.append, hb])]
  simp [ConcurrentFileQueue.append, goodLines]

theorem runAppends_empty_queue (maxSize : Nat) (ps : List VehiclePosition) :
    (runAppends maxSize emptyQueueState ps).queue = takeLast maxSize ps := by
  rw [runAppends_queue maxSize ps emptyQueueState (by simp [emptyQueueState])]
  rfl

theorem takeLast_ne_nil (n : Nat) (l : List α) (hn : 1 ≤ n) (hl : l ≠ []) :
    takeLast n l ≠ [] := by
  have h1 : 1 ≤ l.length := List.length_pos.mpr hl
  have h2 := takeLast_length n l
  intro h
  rw [h] at h2
  simp at h2
  omega

/-- Claim C9 target: the bounded in-memory deque next to the unbounded
on-disk log. -/
theorem queue_size_bound_and_full_log (maxSize : Nat) (hm : 1 ≤ maxSize)
    (ps : List VehiclePosition) (st : QueueState) (p : VehiclePosition)
    (writeOk : Bool) :
    (runAppends maxSize emptyQueueState ps).queue.length ≤ maxSize
    ∧ (st.queue.length = maxSize →
        (ConcurrentFileQueue.append maxSize st p writeOk).queue =
          st.queue.tail ++ [p])
    ∧ (runAppends maxSize emptyQueueState ps).fs.buffer.getD [] = goodLines ps := by
  refine ⟨?_, ?_, ?_⟩
  · rw [runAppends_empty_queue]
    exact takeLast_length_le _ _
  · intro hlen
    show takeLast maxSize (st.queue ++ [p]) = st.queue.tail ++ [p]
    rw [takeLast_append_of_le maxSize st.queue [p] (by simp; omega)]
    have h1 : st.queue.length + [p].length - maxSize = 1 := by
      simp only [List.length_singleton, hlen]
      omega
    rw [h1, List.drop_one]
  · cases ps with
    | nil => simp [runAppends, emptyQueueState, emptyFS, goodLines]
    | cons q qs =>
      rw [runAppends_fs_of_none maxSize q qs emptyQueueState rfl]
      simp

/-- Claim C10 target: an `append` whose file write raised `OSError`
(caught and logged) still records the position in memory only. -/
theorem append_write_failure_keeps_position (maxSize : Nat) (hm : 1 ≤ maxSize)
    (st : QueueState) (p : VehiclePosition) (renameOk : Bool) :
    (ConcurrentFileQueue.append maxSize st p false).fs = st.fs
    ∧ (ConcurrentFileQueue.append maxSize st p false).queue.getLast? = some p
    ∧ p ∈ (ConcurrentFileQueue.flush
        (ConcurrentFileQueue.append maxSize st p false) renameOk).1 := by
  have hq : (ConcurrentFileQueue.append maxSize st p false).queue
      = st.queue.drop (st.queue.length + [p].length - maxSize) ++ [p] := by
    show takeLast maxSize (st.queue ++ [p]) = _
    exact takeLast_append_of_le maxSize st.queue [p] (by simp; omega)
  have h2 : (ConcurrentFileQueue.append maxSize st p false).queue.isEmpty = false := by
    rw [hq]
    simp
  refine ⟨rfl, ?_, ?_⟩
  · rw [hq]
    exact List.getLast?_concat _
  · simp only [ConcurrentFileQueue.flush, h2]
    rw [hq]
    simp

theorem readLines_good (now : Int) (ps : List VehiclePosition) :
    ∀ acc, (∀ p ∈ ps, p.timestamp ≠ 0) →
      ConcurrentFileQueue.readLines now (goodLines ps) acc = .ok (acc ++ ps, true) := by
  induction ps with
  | nil => intro acc _; simp [goodLines, ConcurrentFileQueue.readLines]
  | cons p ps ih =>
    intro acc h
    show ConcurrentFileQueue.readLines now (.json p.to_dict :: goodLines ps) acc = _
    rw [ConcurrentFileQueue.readLines,
      from_dict_to_dict_nonzero now p (h p (List.mem_cons_self p ps))]
    show ConcurrentFileQueue.readLines now (goodLines ps) (acc ++ [p]) = _
    rw [ih (acc ++ [p]) (fun q hq => h q (List.mem_cons_of_mem p hq))]
    simp

theorem readLines_good_malformed (now : Int) (ps : List VehiclePosition) :
    ∀ acc (rest : List QLine), (∀ p ∈ ps, p.timestamp ≠ 0) →
      ConcurrentFileQueue.readLines now (goodLines ps ++ .malformed :: rest) acc =
        .ok (acc ++ ps, false) := by
  induction ps with
  | nil => intro acc rest _; simp [goodLines, ConcurrentFileQueue.readLines]
  | cons p ps ih =>
    intro acc rest h
    show ConcurrentFileQueue.readLines now
      (.json p.to_dict :: (goodLines ps ++ .malformed :: rest)) acc = _
    rw [ConcurrentFileQueue.readLines,
      from_dict_to_dict_nonzero now p (h p (List.mem_cons_self p ps))]
    show ConcurrentFileQueue.readLines now (goodLines ps ++ .malformed :: rest) (acc ++ [p]) = _
    rw [ih (acc ++ [p]) rest (fun q hq => h q (List.mem_cons_of_mem p hq))]
    simp

theorem recoverFile_good (now : Int) (ps : List VehiclePosition)
    (acc : List VehiclePosition) (h : ∀ p ∈ ps, p.timestamp ≠ 0) :
    ConcurrentFileQueue.recoverFile now (some (goodLines ps)) acc =
      .ok (acc ++ ps, none) := by
  simp [ConcurrentFileQueue.recoverFile, readLines_good now ps acc h]

/-- Claim C4 target: `recover` reads processing before buffer and deletes
fully read files, but a malformed line aborts its file: the prefix before
it is recovered, the suffix after it is not, and the file survives. -/
theorem recover_order_and_malformed_abort (now : Int) (ps qs : List VehiclePosition)
    (rest : List QLine) (hps : ∀ p ∈ ps, p.timestamp ≠ 0)
    (hqs : ∀ p ∈ qs, p.timestamp ≠ 0) :
    ConcurrentFileQueue.recover now ⟨some (goodLines qs), some (goodLines ps)⟩ =
      .ok (ps ++ qs, emptyFS)
    ∧ ConcurrentFileQueue.recover now ⟨none, some (goodLines ps ++ .malformed :: rest)⟩ =
        .ok (ps, ⟨none, some (goodLines ps ++ .malformed :: rest)⟩) := by
  constructor
  · show (do
      let (acc1, proc') ← ConcurrentFileQueue.recoverFile now (some (goodLines ps)) []
      let (acc2, buf') ← ConcurrentFileQueue.recoverFile now (some (goodLines qs)) acc1
      return (acc2, ⟨buf', proc'⟩) : Except PyErr (List VehiclePosition × QueueFS)) = _
    rw [recoverFile_good now ps [] hps]
    show (do
      let (acc2, buf') ← ConcurrentFileQueue.recoverFile now (some (goodLines qs)) ([] ++ ps)
      return (acc2, (⟨buf', none⟩ : QueueFS)) : Except PyErr (List VehiclePosition × QueueFS)) = _
    rw [recoverFile_good now qs ([] ++ ps) hqs]
    simp [emptyFS]
  · show (do
      let (acc1, proc') ← ConcurrentFileQueue.recoverFile now
        (some (goodLines ps ++ .malformed :: rest)) []
      let (acc2, buf') ← ConcurrentFileQueue.recoverFile now none acc1
      return (acc2, ⟨buf', proc'⟩) : Except PyErr (List VehiclePosition × QueueFS)) = _
    rw [ConcurrentFileQueue.recoverFile, readLines_good_malformed now ps [] rest hps]
    simp [ConcurrentFileQueue.recoverFile]
    rfl

theorem recover_good_buffer_none (now : Int) (ps : List VehiclePosition)
    (h : ∀ p ∈ ps, p.timestamp ≠ 0) :
    ConcurrentFileQueue.recover now ⟨none, some (goodLines ps)⟩ =
      .ok (ps, emptyFS) := by
  show (do
    let (acc1, proc') ← ConcurrentFileQueue.recoverFile now (some (goodLines ps)) []
    let (acc2, buf') ← ConcurrentFileQueue.recoverFile now none acc1
    return (acc2, ⟨buf', proc'⟩) : Except PyErr (List VehiclePosition × QueueFS)) = _
  rw [recoverFile_good now ps [] h]
  simp [ConcurrentFileQueue.recoverFile, emptyFS]
  rfl

/-- Flushing the state reached by appending `ps` (all writes succeeding)
onto a fresh queue: the whole in-memory tail is drained and the buffer file
becomes the processing file. -/
theorem flush_after_appends (maxSize : Nat) (hm : 1 ≤ maxSize)
    (ps : List VehiclePosition) (hne : ps ≠ []) :
    ConcurrentFileQueue.flush (runAppends maxSize emptyQueueState ps) true =
      (takeLast maxSize ps, ⟨[], ⟨none, some (goodLines ps)⟩⟩) := by
  obtain ⟨p, ps', rfl⟩ := List.exists_cons_of_ne_nil hne
  have hq := runAppends_empty_queue maxSize (p :: ps')
  have hfs := runAppends_fs_of_none maxSize p ps' emptyQueueState rfl
  have hne' : (runAppends maxSize emptyQueueState (p :: ps')).queue.isEmpty = false := by
    rw [hq]
    exact List.isEmpty_eq_false.mpr
      (takeLast_ne_nil maxSize (p :: ps') hm (List.cons_ne_nil p ps'))
  rw [ConcurrentFileQueue.flush, hne']
  simp only [Bool.false_eq_true, if_false, hfs, hq]
  simp

/-- Claim C2 target: append, flush, restart, recover — for positions whose
timestamps survive the `from_dict` round-trip. -/
theorem queue_crash_recovery (maxSize : Nat) (hm : 1 ≤ maxSize) (now : Int)
    (p1 p2 p3 : VehiclePosition) (h1 : p1.timestamp ≠ 0) (h2 : p2.timestamp ≠ 0)
    (h3 : p3.timestamp ≠ 0) :
    (ConcurrentFileQueue.flush (runAppends maxSize emptyQueueState [p1, p2, p3]) true).2.fs =
      ⟨none, some (goodLines [p1, p2, p3])⟩
    ∧ ConcurrentFileQueue.recover now
        (ConcurrentFileQueue.flush (runAppends maxSize emptyQueueState [p1, p2, p3]) true).2.fs =
        .ok ([p1, p2, p3], emptyFS) := by
  have hfl := flush_after_appends maxSize hm [p1, p2, p3] (by simp)
  rw [hfl]
  refine ⟨rfl, ?_⟩
  exact recover_good_buffer_none now [p1, p2, p3] (by
    intro q hq
    simp only [List.mem_cons, List.not_mem_nil, or_false] at hq
    rcases hq with rfl | rfl | rfl
    · exact h1
    · exact h2
    · exact h3)

/-- The orchestrator state after appending `ps` to a fresh queue and running
one flush cycle on which the writer raised. -/
def failedCycleState (maxSize : Nat) (ps : List VehiclePosition) : SysState :=
  flushCycle ⟨runAppends maxSize emptyQueueState ps, [], 0⟩ true false

/-- Claim C1 target: a failed write leaves the batch only in the on-disk
processing file; the in-memory queue is empty, the next flush cycle writes
nothing, and the batch comes back only through `recover`. -/
theorem failed_flush_not_retried (maxSize : Nat) (hm : 1 ≤ maxSize)
    (ps : List VehiclePosition) (hne : ps ≠ [])
    (hts : ∀ p ∈ ps, p.timestamp ≠ 0) (now : Int) (rOk wOk : Bool) :
    (failedCycleState maxSize ps).written = []
    ∧ (failedCycleState maxSize ps).confirms = 0
    ∧ (failedCycleState maxSize ps).qs.queue = []
    ∧ (failedCycleState maxSize ps).qs.fs = ⟨none, some (goodLines ps)⟩
    ∧ (flushCycle (failedCycleState maxSize ps) rOk wOk).written = []
    ∧ ConcurrentFileQueue.recover now (failedCycleState maxSize ps).qs.fs =
        .ok (ps, emptyFS) := by
  have hfl := flush_after_appends maxSize hm ps hne
  have hne2 : (takeLast maxSize ps).isEmpty = false :=
    List.isEmpty_eq_false.mpr (takeLast_ne_nil maxSize ps hm hne)
  have hstate : failedCycleState maxSize ps =
      ⟨⟨[], ⟨none, some (goodLines ps)⟩⟩, [], 0⟩ := by
    unfold failedCycleState flushCycle
    rw [hfl]
    simp [hne2]
  rw [hstate]
  refine ⟨rfl, rfl, rfl, rfl, ?_, ?_⟩
  · simp [flushCycle, ConcurrentFileQueue.flush]
  · exact recover_good_buffer_none now ps hts

/-- Claim C5 target: round-trip through `to_dict`/JSON line/`from_dict` for
positions whose timestamp is nonzero. -/
theorem position_line_roundtrip (now : Int) (p : VehiclePosition)
    (h : p.timestamp ≠ 0) :
    VehiclePosition.from_dict now p.to_dict = .ok p :=
  from_dict_to_dict_nonzero now p h

theorem lookupSeen_eq_none_of_not_mem (seen : List ((Int × Int) × Rat))
    (key : Int × Int) (h : key ∉ seen.map Prod.fst) :
    lookupSeen seen key = none := by
  induction seen with
  | nil => rfl
  | cons kv rest ih =>
    simp only [List.map_cons, List.mem_cons] at h
    push_neg at h
    have hkv : (kv.1 == key) = false := by
      simp [h.1.symm]
    simp [lookupSeen, List.find?, hkv]
    simpa [lookupSeen] using ih h.2

theorem lookupSeen_filter_of_none (seen : List ((Int × Int) × Rat))
    (key : Int × Int) (f : (Int × Int) × Rat → Bool)
    (h : lookupSeen seen key = none) :
    lookupSeen (seen.filter f) key = none := by
  induction seen with
  | nil => rfl
  | cons kv rest ih =>
    rcases hkv : (kv.1 == key) with _ | _
    · have hrest : lookupSeen rest key = none := by
        simpa [lookupSeen, List.find?, hkv] using h
      rcases hf : f kv with _ | _
      · simpa [List.filter, hf] using ih hrest
      · simp only [List.filter, hf]
        simpa [lookupSeen, List.find?, hkv] using ih hrest
    · exfalso
      simp [lookupSeen, List.find?, hkv] at h

theorem lookupSeen_filter_of_some_pos (seen : List ((Int × Int) × Rat))
    (key : Int × Int) (e : Rat) (f : (Int × Int) × Rat → Bool)
    (h : lookupSeen seen key = some e) (hf : f (key, e) = true) :
    lookupSeen (seen.filter f) key = some e := by
  induction seen with
  | nil => simp [lookupSeen] at h
  | cons kv rest ih =>
    rcases hkv : (kv.1 == key) with _ | _
    · have hrest : lookupSeen rest key = some e := by
        simpa [lookupSeen, List.find?, hkv] using h
      rcases hfkv : f kv with _ | _
      · simpa [List.filter, hfkv] using ih hrest
      · simp only [List.filter, hfkv]
        simpa [lookupSeen, List.find?, hkv] using ih hrest
    · have h1 : kv.1 = key := by simpa using hkv
      have h2 : kv.2 = e := by
        simpa [lookupSeen, List.find?, hkv] using h
      have hkve : kv = (key, e) := by
        rcases kv with ⟨a, b⟩
        simp_all
      rw [hkve]
      simp [List.filter, hf, lookupSeen, List.find?]

theorem lookupSeen_filter_of_some_neg (seen : List ((Int × Int) × Rat))
    (key : Int × Int) (e : Rat) (f : (Int × Int) × Rat → Bool)
    (hnd : (seen.map Prod.fst).Nodup)
    (h : lookupSeen seen key = some e) (hf : f (key, e) = false) :
    lookupSeen (seen.filter f) key = none := by
  induction seen with
  | nil => simp [lookupSeen] at h
  | cons kv rest ih =>
    have hnd' := hnd
    simp only [List.map_cons, List.nodup_cons] at hnd'
    rcases hkv : (kv.1 == key) with _ | _
    · have hrest : lookupSeen rest key = some e := by
        simpa [lookupSeen, List.find?, hkv] using h
      rcases hfkv : f kv with _ | _
      · simpa [List.filter, hfkv] using ih hnd'.2 hrest
      · simp only [List.filter, hfkv]
        have := ih hnd'.2 hrest
        simpa [lookupSeen, List.find?, hkv] using this
    · have h1 : kv.1 = key := by simpa using hkv
      have h2 : kv.2 = e := by
        simpa [lookupSeen, List.find?, hkv] using h
      have hkve : kv = (key, e) := by
        rcases kv with ⟨a, b⟩
        simp_all
      subst hkve
      simp only [List.filter, hf]
      exact lookupSeen_filter_of_none rest key f
        (lookupSeen_eq_none_of_not_mem rest key (by simpa [h1] using hnd'.1))

theorem lookupSeen_append_of_none (seen : List ((Int × Int) × Rat))
    (key : Int × Int) (v : Rat) (h : lookupSeen seen key = none) :
    lookupSeen (seen ++ [(key, v)]) key = some v := by
  induction seen with
  | nil => simp [lookupSeen, List.find?]
  | cons kv rest ih =>
    rcases hkv : (kv.1 == key) with _ | _
    · have hrest : lookupSeen rest key = none := by
        simpa [lookupSeen, List.find?, hkv] using h
      simpa [lookupSeen, List.find?, hkv] using ih hrest
    · exfalso
      simp [lookupSeen, List.find?, hkv] at h

/-- Claim C3 target: the duplicate filter checks presence, not expiry; an
expired key reports not-duplicate only once the lazy sweep has removed it,
and the sweep may mutate state even on a duplicate hit. -/
theorem is_duplicate_lazy_sweep (st : DeduplicationFilter) (now : Rat)
    (p : VehiclePosition) (hnd : (st.seen.map Prod.fst).Nodup) :
    (now - st.last_cleanup ≤ st.cleanup_interval →
      (lookupSeen st.seen (p.vehicle_id, p.timestamp)).isSome →
        st.is_duplicate now p = (true, st))
    ∧ (lookupSeen st.seen (p.vehicle_id, p.timestamp) = none →
        (st.is_duplicate now p).1 = false
        ∧ lookupSeen (st.is_duplicate now p).2.seen (p.vehicle_id, p.timestamp) =
            some (now + st.ttl))
    ∧ (∀ e, lookupSeen st.seen (p.vehicle_id, p.timestamp) = some e → now < e →
        (st.is_duplicate now p).1 = true)
    ∧ (∀ e, lookupSeen st.seen (p.vehicle_id, p.timestamp) = some e → e ≤ now →
        st.cleanup_interval < now - st.last_cleanup →
        (st.is_duplicate now p).1 = false
        ∧ lookupSeen (st.is_duplicate now p).2.seen (p.vehicle_id, p.timestamp) =
            some (now + st.ttl))
    ∧ (∀ e, lookupSeen st.seen (p.vehicle_id, p.timestamp) = some e → e ≤ now →
        now - st.last_cleanup ≤ st.cleanup_interval →
        st.is_duplicate now p = (true, st)) := by
  refine ⟨?_, ?_, ?_, ?_, ?_⟩
  · intro h hs
    obtain ⟨e, he⟩ := Option.isSome_iff_exists.mp hs
    simp [DeduplicationFilter.is_duplicate, not_lt.mpr h, he]
  · intro hnone
    by_cases hsw : st.cleanup_interval < now - st.last_cleanup
    · have hf := lookupSeen_filter_of_none st.seen (p.vehicle_id, p.timestamp)
        (fun kv => decide (now < kv.2)) hnone
      constructor
      · simp [DeduplicationFilter.is_duplicate, hsw, DeduplicationFilter.cleanup, hf]
      · simp only [DeduplicationFilter.is_duplicate, hsw, if_pos,
          DeduplicationFilter.cleanup, hf]
        exact lookupSeen_append_of_none _ _ _ hf
    · constructor
      · simp [DeduplicationFilter.is_duplicate, hsw, hnone]
      · simp only [DeduplicationFilter.is_duplicate, hsw, if_neg, ite_false, hnone]
        exact lookupSeen_append_of_none _ _ _ hnone
  · intro e he hlt
    by_cases hsw : st.cleanup_interval < now - st.last_cleanup
    · have hf := lookupSeen_filter_of_some_pos st.seen (p.vehicle_id, p.timestamp) e
        (fun kv => decide (now < kv.2)) he (by simpa using hlt)
      simp [DeduplicationFilter.is_duplicate, hsw, DeduplicationFilter.cleanup, hf]
    · simp [DeduplicationFilter.is_duplicate, hsw, he]
  · intro e he hexp hsw
    have hf := lookupSeen_filter_of_some_neg st.seen (p.vehicle_id, p.timestamp) e
      (fun kv => decide (now < kv.2)) hnd he (by simpa using not_lt.mpr hexp)
    constructor
    · simp [DeduplicationFilter.is_duplicate, hsw, DeduplicationFilter.cleanup, hf]
    · simp only [DeduplicationFilter.is_duplicate, hsw, if_pos,
        DeduplicationFilter.cleanup, hf]
      exact lookupSeen_append_of_none _ _ _ hf
  · intro e he hexp h
    simp [DeduplicationFilter.is_duplicate, not_lt.mpr h, he]

theorem delayVar_shift (base : Nat) :
    ∀ n, delayVar base (n + 1) = delayVar (min (base * 2) 300) n := by
  intro n
  induction n with
  | zero => rfl
  | succ m ih =>
    show min (delayVar base (m + 1) * 2) 300 = _
    rw [ih]
    rfl

theorem runLoop_replicate_fail (base : Nat) :
    ∀ (n : Nat) (d : Nat) (sleeps : List Nat),
      List.foldl (runLoopStep base) (d, sleeps) (List.replicate n .handshakeFail) =
        (delayVar d n, sleeps ++ (List.range n).map (delayVar d)) := by
  intro n
  induction n with
  | zero => intro d sleeps; simp [delayVar]
  | succ m ih =>
    intro d sleeps
    rw [List.replicate_succ, List.foldl_cons]
    show List.foldl (runLoopStep base) (min (d * 2) 300, sleeps ++ [d])
      (List.replicate m .handshakeFail) = _
    rw [ih (min (d * 2) 300) (sleeps ++ [d])]
    rw [Prod.mk.injEq]
    refine ⟨?_, ?_⟩
    · rw [delayVar_shift]
    · rw [List.range_succ_eq_map, List.map_cons, List.map_map]
      have hm : (List.range m).map (delayVar d ∘ Nat.succ) =
          (List.range m).map (delayVar (min (d * 2) 300)) := by
        apply List.map_congr_left
        intro k _
        exact delayVar_shift d k
      rw [hm]
      simp [delayVar]

theorem delayVar_closed (base : Nat) (hb : base ≤ 300) :
    ∀ n, delayVar base n = min (base * 2 ^ n) 300 := by
  intro n
  induction n with
  | zero => simp [delayVar, Nat.min_eq_left hb]
  | succ m ih =>
    show min (delayVar base m * 2) 300 = _
    rw [ih]
    rcases le_or_lt (base * 2 ^ m) 300 with h | h
    · rw [Nat.min_eq_left h, pow_succ, ← Nat.mul_assoc]
    · rw [Nat.min_eq_right (Nat.le_of_lt h)]
      have h2 : 300 ≤ base * 2 ^ (m + 1) := by
        rw [pow_succ, ← Nat.mul_assoc]
        omega
      rw [Nat.min_eq_right h2]
      have h3 : 1 ≤ 2 ^ m := Nat.one_le_two_pow
      omega

/-- Claim C6 target: after `n` consecutive failures the sleep before the
next attempt is `min(base * 2^(n-1), 300)` — the doubling happens after the
sleep — and any successful connection resets the delay variable to the
base reconnect delay. -/
theorem backoff_growth_and_reset (base n : Nat) (hb : base ≤ 300) (hn : 1 ≤ n)
    (events : List LoopEvent) :
    (runLoop base (List.replicate n .handshakeFail)).2.getLast? =
      some (min (base * 2 ^ (n - 1)) 300)
    ∧ (runLoop base (events ++ [.sessionEnd])).1 = base := by
  constructor
  · rw [runLoop, runLoop_replicate_fail base n base []]
    obtain ⟨m, rfl⟩ : ∃ m, n = m + 1 := ⟨n - 1, by omega⟩
    rw [List.range_succ, List.map_append]
    simp only [List.nil_append]
    rw [List.getLast?_append]
    simp [delayVar_closed base hb]
  · rw [runLoop, List.foldl_append]
    rfl

/-- Claim C7 target: probe response, server ping, and pong handling. -/
theorem protocol_frame_handling (c : Bool) (m : String) :
    handle_protocol_message c "3probe" = ⟨["5", "40"], true, true⟩
    ∧ (m.data.head? = some '2' → handle_protocol_message c m = ⟨["3"], c, true⟩)
    ∧ (m ≠ "3probe" → m.data.head? = some '3' →
        handle_protocol_message c m = ⟨[], c, true⟩) := by
  refine ⟨rfl, ?_, ?_⟩
  · intro h
    have hne : (m == "3probe") = false := by
      refine beq_eq_false_iff_ne.mpr ?_
      intro he
      rw [he] at h
      exact absurd h (by decide)
    have hne2 : (m == "") = false := by
      refine beq_eq_false_iff_ne.mpr ?_
      intro he
      rw [he] at h
      exact absurd h (by decide)
    cases hm : m.data with
    | nil =>
      rw [hm] at h
      exact absurd h (by simp)
    | cons ch rest =>
      rw [hm] at h
      have hch : ch = '2' := by simpa using h
      subst hch
      simp only [handle_protocol_message, hne, Bool.false_eq_true, if_false, hne2, hm]
      rfl
  · intro hne0 h
    have hne : (m == "3probe") = false := beq_eq_false_iff_ne.mpr hne0
    have hne2 : (m == "") = false := by
      refine beq_eq_false_iff_ne.mpr ?_
      intro he
      rw [he] at h
      exact absurd h (by decide)
    cases hm : m.data with
    | nil =>
      rw [hm] at h
      exact absurd h (by simp)
    | cons ch rest =>
      rw [hm] at h
      have hch : ch = '3' := by simpa using h
      subst hch
      simp only [handle_protocol_message, hne, Bool.false_eq_true, if_false, hne2, hm]
      rfl

/-- The handshake body from the spec's test vector. -/
def handshakeExample : String :=
  "97:0\x7b\"sid\":\"abc123\",\"upgrades\":[\"websocket\"],\"pingInterval\":25000\x7d"

/-- Claim C8 target: the example handshake body parses to the session id
and heartbeat interval; any text without the `":0{"` marker yields none. -/
theorem handshake_parse (t : List Char) :
    parse_handshake_response handshakeExample.data =
      (some (.str "abc123"), some (.int 25000))
    ∧ (listIndexOf (":0\x7b").data t = none →
        parse_handshake_response t = (none, none)) := by
  constructor
  · rfl
  · intro h
    simp [parse_handshake_response, h]

/-!
## Concrete instances: counterexamples and witnesses
-/

/-- A position with a nonzero timestamp. -/
def posA : VehiclePosition := ⟨1, 2, 50, 30, 0, 0, 100⟩

/-- A second distinct position with a nonzero timestamp. -/
def posB : VehiclePosition := ⟨3, 4, 50, 30, 1, 0, 200⟩

/-- A third distinct position with a nonzero timestamp. -/
def posC : VehiclePosition := ⟨5, 6, 51, 31, 0, 1, 300⟩

/-- A position whose timestamp is `0` — constructible from the wire, for
example from the CSV record `1,2,50.0,30.0,0,0,0`. -/
def posZero : VehiclePosition := ⟨1, 2, 50, 30, 0, 0, 0⟩

/-- The key `(vehicle_id 7, timestamp 100)` from the spec's dedup vector. -/
def pos7 : VehiclePosition := ⟨7, 1, 50, 30, 0, 0, 100⟩

/-- A different dedup key, used to advance the clock without touching
`pos7`. -/
def pos8 : VehiclePosition := ⟨8, 1, 50, 30, 0, 0, 200⟩

/-- Claim C1 counterexample: append one position, run a flush cycle whose
writer fails (a nonempty batch was flushed), then run the next flush cycle
with a healthy writer — it writes nothing, because `flush()` had already
emptied the in-memory queue; the unwritten batch survives only in the
processing file. -/
theorem failed_flush_not_retried_counterexample :
    (ConcurrentFileQueue.flush (runAppends 10 emptyQueueState [posA]) true).1 = [posA]
    ∧ (failedCycleState 10 [posA]).qs.queue = []
    ∧ (flushCycle (failedCycleState 10 [posA]) true true).written = []
    ∧ (flushCycle (failedCycleState 10 [posA]) true true).qs.fs.processing =
        some (goodLines [posA]) :=
  ⟨rfl, rfl, rfl, rfl⟩

/-- Claim C2 counterexample: appending three positions one of which has
timestamp `0`, flushing, and recovering at clock `7` returns a third
position whose timestamp is `7`, not the appended one. -/
theorem queue_crash_recovery_counterexample :
    ConcurrentFileQueue.recover 7
        (ConcurrentFileQueue.flush
          (runAppends 10 emptyQueueState [posA, posB, posZero]) true).2.fs =
      .ok ([posA, posB, ⟨1, 2, 50, 30, 0, 0, 7⟩], emptyFS)
    ∧ (⟨1, 2, 50, 30, 0, 0, 7⟩ : VehiclePosition) ≠ posZero :=
  ⟨rfl, by decide⟩

/-- Claim C3 counterexample: key `(7,100)` is inserted at time 0 with
expiry 60; a sweep at time 31 keeps it (not yet expired) and resets the
sweep clock; at time 61 the key is expired (60 ≤ 61) but no sweep fires
(61 − 31 = 30 ≤ 30), and `is_duplicate` still reports a duplicate. -/
theorem is_duplicate_expired_counterexample :
    ((DeduplicationFilter.init 0).is_duplicate 0 pos7).1 = false
    ∧ ((((DeduplicationFilter.init 0).is_duplicate 0 pos7).2).is_duplicate 31 pos8).1 = false
    ∧ lookupSeen
        (((((DeduplicationFilter.init 0).is_duplicate 0 pos7).2).is_duplicate 31 pos8).2).seen
        (7, 100) = some 60
    ∧ (60 : Rat) ≤ 61
    ∧ (((((((DeduplicationFilter.init 0).is_duplicate 0 pos7).2).is_duplicate
          31 pos8).2)).is_duplicate 61 pos7).1 = true := by
  refine ⟨?_, ?_, ?_, by norm_num, ?_⟩ <;>
    norm_num [DeduplicationFilter.is_duplicate, DeduplicationFilter.init, lookupSeen,
      pos7, pos8, DeduplicationFilter.cleanup, List.filter, List.find?]

/-- Claim C4 counterexample: a processing file holding a good line, a
malformed line, and another good line: `recover` returns only the first
position, the line after the malformed one is not recovered, and the file
is not deleted. -/
theorem recover_malformed_counterexample :
    ConcurrentFileQueue.recover 0
        ⟨none, some [.json posA.to_dict, .malformed, .json posB.to_dict]⟩ =
      .ok ([posA], ⟨none, some [.json posA.to_dict, .malformed, .json posB.to_dict]⟩)
    ∧ posB ∉ ([posA] : List VehiclePosition) :=
  ⟨rfl, by decide⟩

/-- Claim C5 counterexample: the round-trip changes a zero timestamp to
the current clock. -/
theorem position_line_roundtrip_counterexample :
    VehiclePosition.from_dict 7 posZero.to_dict =
      .ok (⟨1, 2, 50, 30, 0, 0, 7⟩ : VehiclePosition)
    ∧ (⟨1, 2, 50, 30, 0, 0, 7⟩ : VehiclePosition) ≠ posZero :=
  ⟨rfl, by decide⟩

/-- Claim C6 counterexample: after `N = 1` consecutive failure with base
delay 5, the loop sleeps 5 seconds before the next retry (the doubling
happens after the sleep), not `min(5 * 2^1, 300) = 10` as claimed. -/
theorem backoff_growth_counterexample :
    (runLoop 5 [.handshakeFail]).2 = [5]
    ∧ (5 : Nat) ≠ min (5 * 2 ^ 1) 300 :=
  ⟨rfl, by decide⟩

/-- Claim C1 witness: the amended theorem applied at `maxSize = 2`,
batch `[posA]`, clock 0. -/
theorem failed_flush_not_retried_witness :
    (1 ≤ 2)
    ∧ ([posA] ≠ ([] : List VehiclePosition))
    ∧ (∀ p ∈ [posA], p.timestamp ≠ 0)
    ∧ ((failedCycleState 2 [posA]).written = []
      ∧ (failedCycleState 2 [posA]).confirms = 0
      ∧ (failedCycleState 2 [posA]).qs.queue = []
      ∧ (failedCycleState 2 [posA]).qs.fs = ⟨none, some (goodLines [posA])⟩
      ∧ (flushCycle (failedCycleState 2 [posA]) true true).written = []
      ∧ ConcurrentFileQueue.recover 0 (failedCycleState 2 [posA]).qs.fs =
          .ok ([posA], emptyFS)) :=
  ⟨by decide, by decide, by decide,
    failed_flush_not_retried 2 (by decide) [posA] (by decide) (by decide) 0 true true⟩

/-- Claim C2 witness: the amended theorem applied at `maxSize = 2`,
positions `posA`, `posB`, `posC`, recovery clock 5. -/
theorem queue_crash_recovery_witness :
    (1 ≤ 2) ∧ (posA.timestamp ≠ 0) ∧ (posB.timestamp ≠ 0) ∧ (posC.timestamp ≠ 0)
    ∧ ((ConcurrentFileQueue.flush
          (runAppends 2 emptyQueueState [posA, posB, posC]) true).2.fs =
        ⟨none, some (goodLines [posA, posB, posC])⟩
      ∧ ConcurrentFileQueue.recover 5
          (ConcurrentFileQueue.flush
            (runAppends 2 emptyQueueState [posA, posB, posC]) true).2.fs =
          .ok ([posA, posB, posC], emptyFS)) :=
  ⟨by decide, by decide, by decide, by decide,
    queue_crash_recovery 2 (by decide) 5 posA posB posC (by decide) (by decide) (by decide)⟩

/-- Claim C3 witness: the amended theorem applied to a freshly constructed
filter at time 5 with the key absent. -/
theorem is_duplicate_lazy_sweep_witness :
    (((DeduplicationFilter.init 0).seen.map Prod.fst).Nodup)
    ∧ (lookupSeen (DeduplicationFilter.init 0).seen (pos7.vehicle_id, pos7.timestamp) = none)
    ∧ (((DeduplicationFilter.init 0).is_duplicate 5 pos7).1 = false
      ∧ lookupSeen ((DeduplicationFilter.init 0).is_duplicate 5 pos7).2.seen
          (pos7.vehicle_id, pos7.timestamp) = some (5 + (DeduplicationFilter.init 0).ttl)) :=
  ⟨by decide, rfl,
    (is_duplicate_lazy_sweep (DeduplicationFilter.init 0) 5 pos7 (by decide)).2.1 rfl⟩

/-- Claim C4 witness: the amended theorem applied to a one-line processing
file, a one-line buffer file, and a malformed tail at clock 0. -/
theorem recover_order_and_malformed_abort_witness :
    (∀ p ∈ [posA], p.timestamp ≠ 0) ∧ (∀ p ∈ [posB], p.timestamp ≠ 0)
    ∧ (ConcurrentFileQueue.recover 0 ⟨some (goodLines [posB]), some (goodLines [posA])⟩ =
        .ok ([posA] ++ [posB], emptyFS)
      ∧ ConcurrentFileQueue.recover 0 ⟨none, some (goodLines [posA] ++ .malformed :: [])⟩ =
          .ok ([posA], ⟨none, some (goodLines [posA] ++ .malformed :: [])⟩)) :=
  ⟨by decide, by decide,
    recover_order_and_malformed_abort 0 [posA] [posB] [] (by decide) (by decide)⟩

/-- Claim C5 witness: the amended round-trip at clock 3 on `posA`. -/
theorem position_line_roundtrip_witness :
    (posA.timestamp ≠ 0) ∧ VehiclePosition.from_dict 3 posA.to_dict = .ok posA :=
  ⟨by decide, position_line_roundtrip 3 posA (by decide)⟩

/-- Claim C6 witness: the amended backoff law at base 5 after 2 consecutive
failures, and the reset after a successful connection. -/
theorem backoff_growth_and_reset_witness :
    (5 ≤ 300) ∧ (1 ≤ 2)
    ∧ ((runLoop 5 (List.replicate 2 .handshakeFail)).2.getLast? =
        some (min (5 * 2 ^ (2 - 1)) 300)
      ∧ (runLoop 5 ([] ++ [.sessionEnd])).1 = 5) :=
  ⟨by decide, by decide, backoff_growth_and_reset 5 2 (by decide) (by decide) []⟩

/-- Claim C7 witness: the three frame kinds at concrete inputs. -/
theorem protocol_frame_handling_witness :
    handle_protocol_message false "3probe" = ⟨["5", "40"], true, true⟩
    ∧ handle_protocol_message false "2" = ⟨["3"], false, true⟩
    ∧ handle_protocol_message false "3" = ⟨[], false, true⟩ :=
  ⟨(protocol_frame_handling false "2").1,
    (protocol_frame_handling false "2").2.1 rfl,
    (protocol_frame_handling false "3").2.2 (by decide) rfl⟩

/-- Claim C8 witness: a text without the marker parses to none. -/
theorem handshake_parse_witness :
    (listIndexOf (":0\x7b").data "hello".data = none)
    ∧ parse_handshake_response "hello".data = (none, none) :=
  ⟨rfl, (handshake_parse "hello".data).2 rfl⟩

/-- Claim C9 witness: capacity 2, three appends, plus one eviction step
from a full queue. -/
theorem queue_size_bound_and_full_log_witness :
    (1 ≤ 2)
    ∧ (runAppends 2 emptyQueueState [posA, posB, posC]).queue.length ≤ 2
    ∧ (ConcurrentFileQueue.append 2 ⟨[posA, posB], emptyFS⟩ posC true).queue =
        ([posA, posB] : List VehiclePosition).tail ++ [posC]
    ∧ (runAppends 2 emptyQueueState [posA, posB, posC]).fs.buffer.getD [] =
        goodLines [posA, posB, posC] :=
  ⟨by decide,
    (queue_size_bound_and_full_log 2 (by decide) [posA, posB, posC]
      ⟨[posA, posB], emptyFS⟩ posC true).1,
    (queue_size_bound_and_full_log 2 (by decide) [posA, posB, posC]
      ⟨[posA, posB], emptyFS⟩ posC true).2.1 (by decide),
    (queue_size_bound_and_full_log 2 (by decide) [posA, posB, posC]
      ⟨[posA, posB], emptyFS⟩ posC true).2.2⟩

/-- Claim C10 witness: capacity 1, failed write on a fresh queue. -/
theorem append_write_failure_keeps_position_witness :
    (1 ≤ 1)
    ∧ ((ConcurrentFileQueue.append 1 emptyQueueState posA false).fs = emptyQueueState.fs
      ∧ (ConcurrentFileQueue.append 1 emptyQueueState posA false).queue.getLast? = some posA
      ∧ posA ∈ (ConcurrentFileQueue.flush
          (ConcurrentFileQueue.append 1 emptyQueueState posA false) true).1) :=
  ⟨by decide, append_write_failure_keeps_position 1 (by decide) emptyQueueState posA true⟩
